import Mathlib

/-!
Verification of the tinyvc quantitative pipeline against its specification.

The Python sources are shallowly embedded: pandas rows become structures with
Option-valued fields (NaN or a missing value becomes none), Python floats
become rationals, fallible code returns Except or Option.  Each section names
the source file it embeds.
-/

namespace TinyVC

/-! ## quant_engine/filters.py -/

/-- Value and momentum filter thresholds (the thresholds dictionary).  A
missing max bound is the Python default float inf, encoded as none. -/
structure ValueFilters where
  min_market_cap : ℚ
  max_pe_ratio : Option ℚ
  max_peg_ratio : Option ℚ
deriving Repr, DecidableEq

structure MomentumFilters where
  max_pct_from_52w_high : ℚ
  require_above_200d_ma : Bool
deriving Repr, DecidableEq

/-- One row of the DataFrame produced by EquityDataset.to_dataframe, restricted
to the columns the filters read.  Optional fields are NaN-able columns. -/
structure FRow where
  market_cap : ℚ
  current_price : ℚ
  high_52w : ℚ
  pe_ratio : Option ℚ
  peg_ratio : Option ℚ
  year_return : Option ℚ
  ma_50d : Option ℚ
  ma_200d : Option ℚ
deriving Repr, DecidableEq

/-- Derived column pct_from_52w_high of to_dataframe. -/
def pct_from_52w_high (r : FRow) : ℚ :=
  (r.current_price - r.high_52w) / r.high_52w

/-- Derived column above_200d_ma of to_dataframe: price above the 200-day
moving average, true when the average is absent. -/
def above_200d_ma (r : FRow) : Bool :=
  match r.ma_200d with
  | none => true
  | some m => decide (r.current_price > m)

/-- Derived column above_50d_ma of to_dataframe. -/
def above_50d_ma (r : FRow) : Bool :=
  match r.ma_50d with
  | none => true
  | some m => decide (r.current_price > m)

/-- Python: pd.notna(v) and v > bound, where bound defaults to float inf
(encoded none, for which the comparison is always false). -/
def exceeds (v : Option ℚ) (bound : Option ℚ) : Bool :=
  match v, bound with
  | some x, some b => decide (x > b)
  | _, _ => false

/-- OpportunityFilter._check_value_filters. -/
def check_value_filters (vf : ValueFilters) (r : FRow) : Bool :=
  if r.market_cap < vf.min_market_cap then false
  else if exceeds r.pe_ratio vf.max_pe_ratio then false
  else if exceeds r.peg_ratio vf.max_peg_ratio then false
  else true

/-- OpportunityFilter._check_momentum_filters. -/
def check_momentum_filters (mf : MomentumFilters) (r : FRow) : Bool :=
  if pct_from_52w_high r < -mf.max_pct_from_52w_high then false
  else if mf.require_above_200d_ma ∧ ¬above_200d_ma r then false
  else true

/-- PE block of _calculate_opportunity_score (score is the running total). -/
def score_pe (pe : Option ℚ) (s : ℚ) : ℚ :=
  match pe with
  | some x => if x < 20 then s + 15 else if x < 30 then s + 5 else if x > 40 then s - 10 else s
  | none => s

/-- PEG block of _calculate_opportunity_score. -/
def score_peg (peg : Option ℚ) (s : ℚ) : ℚ :=
  match peg with
  | some x => if x < 1 then s + 10 else if x < 1.5 then s + 5 else if x > 2.5 then s - 10 else s
  | none => s

/-- Momentum block of _calculate_opportunity_score. -/
def score_momentum (pct : ℚ) (s : ℚ) : ℚ :=
  if pct > -0.05 then s + 15 else if pct > -0.15 then s + 5 else if pct < -0.30 then s - 5 else s

/-- Moving-average block of _calculate_opportunity_score. -/
def score_ma (a200 a50 : Bool) (s : ℚ) : ℚ :=
  let s := if a200 then s + 10 else s
  if a50 then s + 5 else s

/-- One-year-return block of _calculate_opportunity_score. -/
def score_year (yr : Option ℚ) (s : ℚ) : ℚ :=
  match yr with
  | some x => if x > 30 then s + 10 else if x > 10 then s + 5 else if x < -10 then s - 5 else s
  | none => s

/-- Extreme-fear block of _calculate_opportunity_score. -/
def score_fear (vf : ValueFilters) (r : FRow) (fear_greed_score : ℤ) (s : ℚ) : ℚ :=
  if fear_greed_score < 25 ∧ pct_from_52w_high r < -0.20 then
    (if check_value_filters vf r then s + 10 else s)
  else s

/-- Extreme-greed block of _calculate_opportunity_score. -/
def score_greed (fear_greed_score : ℤ) (s : ℚ) : ℚ :=
  if fear_greed_score > 75 then s - 10 else s

/-- OpportunityFilter._calculate_opportunity_score: sequential updates of the
running score starting at 50.0, clamped to the 0..100 range at the end. -/
def calculate_opportunity_score (vf : ValueFilters) (r : FRow) (fear_greed_score : ℤ) : ℚ :=
  max 0 (min 100
    (score_greed fear_greed_score
      (score_fear vf r fear_greed_score
        (score_year r.year_return
          (score_ma (above_200d_ma r) (above_50d_ma r)
            (score_momentum (pct_from_52w_high r)
              (score_peg r.peg_ratio
                (score_pe r.pe_ratio 50))))))))

/-! Additive reading of the score used by the specification: one independent
term per factor, summed and clamped. -/

def pe_term (pe : Option ℚ) : ℚ :=
  match pe with
  | some x => if x < 20 then 15 else if x < 30 then 5 else if x > 40 then -10 else 0
  | none => 0

def peg_term (peg : Option ℚ) : ℚ :=
  match peg with
  | some x => if x < 1 then 10 else if x < 1.5 then 5 else if x > 2.5 then -10 else 0
  | none => 0

def momentum_term (pct : ℚ) : ℚ :=
  if pct > -0.05 then 15 else if pct > -0.15 then 5 else if pct < -0.30 then -5 else 0

def year_term (yr : Option ℚ) : ℚ :=
  match yr with
  | some x => if x > 30 then 10 else if x > 10 then 5 else if x < -10 then -5 else 0
  | none => 0

def fear_term (vf : ValueFilters) (r : FRow) (fg : ℤ) : ℚ :=
  if fg < 25 ∧ pct_from_52w_high r < -0.20 ∧ check_value_filters vf r then 10 else 0

def greed_term (fg : ℤ) : ℚ := if fg > 75 then -10 else 0

/-- Raw additive score of the specification, before clamping. -/
def opportunity_raw_spec (vf : ValueFilters) (r : FRow) (fg : ℤ) : ℚ :=
  50 + pe_term r.pe_ratio + peg_term r.peg_ratio + momentum_term (pct_from_52w_high r)
    + (if above_200d_ma r then 10 else 0) + (if above_50d_ma r then 5 else 0)
    + year_term r.year_return + fear_term vf r fg + greed_term fg

/-- Additive score of the specification, clamped to the 0..100 range. -/
def opportunity_score_spec (vf : ValueFilters) (r : FRow) (fg : ℤ) : ℚ :=
  max 0 (min 100 (opportunity_raw_spec vf r fg))

lemma score_pe_eq (pe : Option ℚ) (s : ℚ) : score_pe pe s = s + pe_term pe := by
  cases pe with
  | none => simp [score_pe, pe_term]
  | some x => simp only [score_pe, pe_term]; split_ifs <;> ring

lemma score_peg_eq (peg : Option ℚ) (s : ℚ) : score_peg peg s = s + peg_term peg := by
  cases peg with
  | none => simp [score_peg, peg_term]
  | some x => simp only [score_peg, peg_term]; split_ifs <;> ring

lemma score_momentum_eq (pct : ℚ) (s : ℚ) :
    score_momentum pct s = s + momentum_term pct := by
  simp only [score_momentum, momentum_term]; split_ifs <;> ring

lemma score_ma_eq (a200 a50 : Bool) (s : ℚ) :
    score_ma a200 a50 s = s + (if a200 then 10 else 0) + (if a50 then 5 else 0) := by
  cases a200 <;> cases a50 <;> simp [score_ma]

lemma score_year_eq (yr : Option ℚ) (s : ℚ) : score_year yr s = s + year_term yr := by
  cases yr with
  | none => simp [score_year, year_term]
  | some x => simp only [score_year, year_term]; split_ifs <;> ring

lemma score_fear_eq (vf : ValueFilters) (r : FRow) (fg : ℤ) (s : ℚ) :
    score_fear vf r fg s = s + fear_term vf r fg := by
  simp only [score_fear, fear_term]
  by_cases h1 : fg < 25 ∧ pct_from_52w_high r < -0.20
  · rw [if_pos h1]
    by_cases h2 : check_value_filters vf r = true
    · rw [if_pos h2, if_pos ⟨h1.1, h1.2, h2⟩]
    · rw [if_neg h2, if_neg (fun h => h2 h.2.2)]; ring
  · rw [if_neg h1, if_neg (fun h => h1 ⟨h.1, h.2.1⟩)]; ring

lemma score_greed_eq (fg : ℤ) (s : ℚ) : score_greed fg s = s + greed_term fg := by
  simp only [score_greed, greed_term]; split_ifs <;> ring

lemma calculate_opportunity_score_eq_spec (vf : ValueFilters) (r : FRow) (fg : ℤ) :
    calculate_opportunity_score vf r fg = opportunity_score_spec vf r fg := by
  simp only [calculate_opportunity_score, opportunity_score_spec, opportunity_raw_spec,
    score_pe_eq, score_peg_eq, score_momentum_eq, score_ma_eq, score_year_eq,
    score_fear_eq, score_greed_eq]

/-- Example row of the specification: pe 15, peg 0.8, three percent below the
52-week high, no moving averages recorded (so above both by default), one-year
return 35. -/
def exampleRow : FRow :=
  { market_cap := 1000000000
    current_price := 97
    high_52w := 100
    pe_ratio := some 15
    peg_ratio := some (4/5)
    year_return := some 35
    ma_50d := none
    ma_200d := none }

/-- Threshold configuration with every bound at its loosest default. -/
def defaultVF : ValueFilters := { min_market_cap := 0, max_pe_ratio := none, max_peg_ratio := none }

/-- C1: the opportunity score is the additive algorithm of the specification
(start at 50, add the pe, peg, momentum, moving-average, year-return,
extreme-fear and extreme-greed terms, clamp to the 0..100 range), and the
example record with pe 15, peg 0.8, pct_from_52w_high -0.03, above both moving
averages, year return 35 and sentiment 50 sums to 115 before clamping and is
returned as 100. -/
theorem C1_opportunity_score :
    (∀ (vf : ValueFilters) (r : FRow) (fg : ℤ),
      calculate_opportunity_score vf r fg = opportunity_score_spec vf r fg)
    ∧ opportunity_raw_spec defaultVF exampleRow 50 = 115
    ∧ calculate_opportunity_score defaultVF exampleRow 50 = 100 := by
  have hraw : opportunity_raw_spec defaultVF exampleRow 50 = 115 := by
    norm_num [opportunity_raw_spec, pe_term, peg_term, momentum_term, year_term,
      fear_term, greed_term, pct_from_52w_high, above_200d_ma, above_50d_ma,
      exampleRow, defaultVF, check_value_filters, exceeds]
  refine ⟨calculate_opportunity_score_eq_spec, hraw, ?_⟩
  rw [calculate_opportunity_score_eq_spec]
  unfold opportunity_score_spec
  rw [hraw]
  norm_num

/-- One output row of OpportunityFilter.apply_filters: the input columns plus
the two filter booleans and the opportunity score. -/
structure OppRow where
  row : FRow
  passes_value_filter : Bool
  passes_momentum_filter : Bool
  opportunity_score : ℚ
deriving Repr, DecidableEq

/-- Insert a row into a list sorted by descending opportunity score. -/
def insert_desc (x : OppRow) : List OppRow → List OppRow
  | [] => [x]
  | y :: ys =>
    if y.opportunity_score ≤ x.opportunity_score then x :: y :: ys
    else y :: insert_desc x ys

/-- Sorting step of apply_filters: df.sort_values by opportunity_score with
ascending false (any descending order; pandas does not promise stability). -/
def sort_desc (l : List OppRow) : List OppRow := l.foldr insert_desc []

/-- OpportunityFilter.apply_filters: compute the two filter booleans and the
opportunity score for every row, then sort descending by score. -/
def apply_filters (vf : ValueFilters) (mf : MomentumFilters) (rows : List FRow)
    (fear_greed_score : ℤ) : List OppRow :=
  sort_desc (rows.map (fun r =>
    ⟨r, check_value_filters vf r, check_momentum_filters mf r,
      calculate_opportunity_score vf r fear_greed_score⟩))

lemma mem_insert_desc {a x : OppRow} {l : List OppRow} :
    a ∈ insert_desc x l ↔ a = x ∨ a ∈ l := by
  induction l with
  | nil => simp [insert_desc]
  | cons y ys ih =>
    simp only [insert_desc]
    split_ifs <;> simp [ih] <;> tauto

lemma mem_sort_desc {a : OppRow} {l : List OppRow} : a ∈ sort_desc l ↔ a ∈ l := by
  induction l with
  | nil => simp [sort_desc]
  | cons y ys ih =>
    show a ∈ insert_desc y (sort_desc ys) ↔ _
    rw [mem_insert_desc]
    simp [ih]

lemma chain'_insert_desc (x : OppRow) (l : List OppRow)
    (h : l.Chain' (fun a b => b.opportunity_score ≤ a.opportunity_score)) :
    (insert_desc x l).Chain' (fun a b => b.opportunity_score ≤ a.opportunity_score) := by
  induction l with
  | nil => simp [insert_desc]
  | cons y ys ih =>
    simp only [insert_desc]
    split_ifs with hle
    · exact h.cons hle
    · refine List.chain'_cons'.2 ⟨?_, ih h.tail⟩
      intro z hz
      cases ys with
      | nil =>
        simp [insert_desc] at hz
        subst hz
        exact le_of_lt (lt_of_not_le hle)
      | cons w ws =>
        simp only [insert_desc] at hz
        split_ifs at hz with hw
        · simp at hz
          subst hz
          exact le_of_lt (lt_of_not_le hle)
        · simp at hz
          subst hz
          exact (List.chain'_cons.1 h).1

lemma chain'_sort_desc (l : List OppRow) :
    (sort_desc l).Chain' (fun a b => b.opportunity_score ≤ a.opportunity_score) := by
  induction l with
  | nil => simp [sort_desc]
  | cons y ys ih => exact chain'_insert_desc y (sort_desc ys) ih

lemma opportunity_score_bounds (vf : ValueFilters) (r : FRow) (fg : ℤ) :
    0 ≤ calculate_opportunity_score vf r fg ∧ calculate_opportunity_score vf r fg ≤ 100 := by
  unfold calculate_opportunity_score
  constructor
  · exact le_max_left 0 _
  · exact max_le (by norm_num) (min_le_left _ _)

/-- C8: every row of the apply_filters output carries an opportunity score in
the 0..100 range, and the output is sorted in descending order of
opportunity score. -/
theorem C8_apply_filters_bounds_sorted (vf : ValueFilters) (mf : MomentumFilters)
    (rows : List FRow) (fg : ℤ) :
    (∀ o ∈ apply_filters vf mf rows fg,
      0 ≤ o.opportunity_score ∧ o.opportunity_score ≤ 100)
    ∧ (apply_filters vf mf rows fg).Chain'
        (fun a b => b.opportunity_score ≤ a.opportunity_score) := by
  constructor
  · intro o ho
    rw [apply_filters, mem_sort_desc, List.mem_map] at ho
    obtain ⟨r, _, rfl⟩ := ho
    exact opportunity_score_bounds vf r fg
  · exact chain'_sort_desc _

/-! ## quant_engine/correlation.py -/

/-- Correlation matrix as a DataFrame: its column labels and its entries by
column position.  The matrix is empty exactly when it has no columns. -/
structure CorrMatrix where
  cols : List String
  entry : Nat → Nat → ℚ

/-- CorrelationAnalyzer._find_high_correlation_pairs: walk the upper triangle
(positions i less than j, in column order) and keep every pair whose absolute
correlation strictly exceeds the threshold. -/
def find_high_correlation_pairs (max_correlation : ℚ) (m : CorrMatrix) :
    List (String × String × ℚ) :=
  (List.range m.cols.length).flatMap (fun i =>
    ((List.range m.cols.length).filter (fun j => i < j)).filterMap (fun j =>
      if |m.entry i j| > max_correlation then
        some (m.cols.getD i "", m.cols.getD j "", m.entry i j)
      else none))

/-- DataFrame row as seen by enforce_diversification: a ticker and its
opportunity score. -/
structure DRow where
  ticker : String
  opportunity_score : ℚ
deriving Repr, DecidableEq

/-- Score lookup df[df.ticker == t].opportunity_score.iloc[0]; none models the
IndexError Python raises when the ticker has no row. -/
def lookup_score (df : List DRow) (t : String) : Option ℚ :=
  (df.find? (fun r => r.ticker == t)).map (fun r => r.opportunity_score)

/-- Single pass over the high-correlation pairs accumulating the set of
tickers to drop: skip a pair when either ticker is already marked, otherwise
mark the pair's lower-scoring ticker. -/
def mark_drops (df : List DRow) : List (String × String × ℚ) → List String → Option (List String)
  | [], drops => some drops
  | (t1, t2, _) :: rest, drops =>
    if drops.contains t1 || drops.contains t2 then mark_drops df rest drops
    else
      match lookup_score df t1, lookup_score df t2 with
      | some s1, some s2 =>
        if s1 < s2 then mark_drops df rest (drops ++ [t1])
        else mark_drops df rest (drops ++ [t2])
      | _, _ => none

/-- CorrelationAnalyzer.enforce_diversification. -/
def enforce_diversification (max_correlation : ℚ) (df : List DRow) (m : CorrMatrix) :
    Option (List DRow) :=
  if m.cols.isEmpty then some df
  else
    let pairs := find_high_correlation_pairs max_correlation m
    if pairs.isEmpty then some df
    else (mark_drops df pairs []).map (fun drops =>
      df.filter (fun r => !drops.contains r.ticker))

lemma mem_find_high_correlation_pairs (mc : ℚ) (m : CorrMatrix)
    (t1 t2 : String) (c : ℚ) :
    (t1, t2, c) ∈ find_high_correlation_pairs mc m ↔
      ∃ i j, i < j ∧ j < m.cols.length ∧ m.cols.getD i "" = t1 ∧
        m.cols.getD j "" = t2 ∧ m.entry i j = c ∧ |c| > mc := by
  simp only [find_high_correlation_pairs, List.mem_flatMap, List.mem_filterMap,
    List.mem_filter, List.mem_range]
  constructor
  · rintro ⟨i, hi, j, ⟨⟨hj, hij⟩, hopt⟩⟩
    split_ifs at hopt with habs
    · simp only [Option.some_inj, Prod.mk.injEq] at hopt
      obtain ⟨h1, h2, h3⟩ := hopt
      exact ⟨i, j, by simpa using hij, hj, h1, h2, h3, h3 ▸ habs⟩
  · rintro ⟨i, j, hij, hj, h1, h2, h3, habs⟩
    refine ⟨i, lt_trans hij hj, j, ⟨⟨hj, by simpa using hij⟩, ?_⟩⟩
    rw [if_pos (h3 ▸ habs), h1, h2, h3]

/-- Pair of the specification example: two tickers with the given off-diagonal
correlation. -/
def mat2 (c : ℚ) : CorrMatrix :=
  { cols := ["A", "B"], entry := fun i j => if i = j then 1 else c }

def df2 : List DRow := [⟨"A", 80⟩, ⟨"B", 60⟩]

/-- C2: enforce_diversification scans the strict upper triangle of the matrix
in column order keeping pairs with absolute correlation above the threshold
(first conjunct characterises the pair list), processes the pairs once in
order with first-decision-wins (a pair with an already-marked ticker is
skipped, otherwise the lower-scoring ticker of the pair is marked), and
finally removes every marked ticker; on two tickers with correlation 0.95 and
scores 80 and 60 the score-60 ticker is removed and the score-80 ticker kept,
while correlation 0.5 leaves the input unchanged. -/
theorem C2_enforce_diversification :
    (∀ (mc : ℚ) (m : CorrMatrix) (t1 t2 : String) (c : ℚ),
      (t1, t2, c) ∈ find_high_correlation_pairs mc m ↔
        ∃ i j, i < j ∧ j < m.cols.length ∧ m.cols.getD i "" = t1 ∧
          m.cols.getD j "" = t2 ∧ m.entry i j = c ∧ |c| > mc)
    ∧ (∀ (df : List DRow) (t1 t2 : String) (c : ℚ) (rest : List (String × String × ℚ))
        (drops : List String), (drops.contains t1 || drops.contains t2) = true →
        mark_drops df ((t1, t2, c) :: rest) drops = mark_drops df rest drops)
    ∧ (∀ (df : List DRow) (t1 t2 : String) (c : ℚ) (rest : List (String × String × ℚ))
        (drops : List String) (s1 s2 : ℚ),
        (drops.contains t1 || drops.contains t2) = false →
        lookup_score df t1 = some s1 → lookup_score df t2 = some s2 →
        mark_drops df ((t1, t2, c) :: rest) drops =
          mark_drops df rest (drops ++ [if s1 < s2 then t1 else t2]))
    ∧ (∀ (mc : ℚ) (df : List DRow) (m : CorrMatrix) (drops : List String),
        m.cols.isEmpty = false →
        (find_high_correlation_pairs mc m).isEmpty = false →
        mark_drops df (find_high_correlation_pairs mc m) [] = some drops →
        enforce_diversification mc df m =
          some (df.filter (fun r => !drops.contains r.ticker)))
    ∧ enforce_diversification 0.85 df2 (mat2 0.95) = some [⟨"A", 80⟩]
    ∧ enforce_diversification 0.85 df2 (mat2 0.5) = some df2 := by
  refine ⟨mem_find_high_correlation_pairs, ?_, ?_, ?_, ?_, ?_⟩
  · intro df t1 t2 c rest drops h
    simp only [mark_drops]
    rw [if_pos h]
  · intro df t1 t2 c rest drops s1 s2 h h1 h2
    simp only [mark_drops]
    rw [if_neg (by simp only [h]; exact Bool.false_ne_true), h1, h2]
    show (if s1 < s2 then mark_drops df rest (drops ++ [t1])
      else mark_drops df rest (drops ++ [t2])) = _
    split_ifs <;> rfl
  · intro mc df m drops h1 h2 h3
    simp only [enforce_diversification]
    rw [if_neg (by simp only [h1]; exact Bool.false_ne_true),
      if_neg (by simp only [h2]; exact Bool.false_ne_true), h3]
    rfl
  · have hp : find_high_correlation_pairs 0.85 (mat2 0.95) = [("A", "B", 0.95)] := by
      rw [find_high_correlation_pairs]
      norm_num [mat2, List.range_succ, List.filterMap_cons, List.filter_cons, abs]
    have hm : mark_drops df2 [("A", "B", 0.95)] [] = some ["B"] := by
      simp +decide [mark_drops, lookup_score, df2, List.find?]
    simp only [enforce_diversification, hp, hm]
    simp +decide [df2, List.filter]
  · have hp : find_high_correlation_pairs 0.85 (mat2 0.5) = [] := by
      rw [find_high_correlation_pairs]
      norm_num [mat2, List.range_succ, List.filterMap_cons, List.filter_cons, abs]
    simp only [enforce_diversification, hp]
    simp [mat2]

/-- Close-price history of one ticker: date-indexed closes.  Series.pct_change
followed by dropna pairs consecutive rows and drops the leading NaN row. -/
def pct_change_dropna (hist : List (Int × ℚ)) : List (Int × ℚ) :=
  (hist.zip hist.tail).map (fun pc => (pc.2.1, (pc.2.2 - pc.1.2) / pc.1.2))

/-- CorrelationAnalyzer._fetch_returns: a ticker with a non-empty history
contributes its daily-return series to the returns dictionary; tickers with
no history are left out. -/
def fetch_returns (hists : List (String × List (Int × ℚ))) :
    List (String × List (Int × ℚ)) :=
  (hists.filter (fun th => !th.2.isEmpty)).map (fun th => (th.1, pct_change_dropna th.2))

/-- Dates on which every column of the combined returns DataFrame has a value:
the rows surviving the final dropna (alignment by date).  Ordering of the
dates is irrelevant to the claims; the first column's order is used. -/
def common_dates (cols : List (String × List (Int × ℚ))) : List Int :=
  match cols with
  | [] => []
  | c :: rest =>
    (c.2.map (fun p => p.1)).filter (fun d =>
      rest.all (fun col => (col.2.map (fun p => p.1)).contains d))

/-- Values of one returns column at the given dates. -/
def col_values (col : List (Int × ℚ)) (dates : List Int) : List ℚ :=
  dates.filterMap (fun d => (col.find? (fun p => p.1 == d)).map (fun p => p.2))

/-- CorrelationAnalyzer.calculate_correlation_matrix: empty matrix when the
aligned returns DataFrame is empty (no column, or no common date), otherwise
one column per ticker of the returns dictionary with pairwise correlation
entries.  The Pearson coefficient itself involves a square root and leaves ℚ,
so the numerical kernel is a parameter; the claims below depend only on the
shape of the result, which is the same for every kernel. -/
def calculate_correlation_matrix (corrFn : List ℚ → List ℚ → ℚ)
    (hists : List (String × List (Int × ℚ))) : CorrMatrix :=
  let rd := fetch_returns hists
  if rd.isEmpty then { cols := [], entry := fun _ _ => 0 }
  else
    let common := common_dates rd
    if common.isEmpty then { cols := [], entry := fun _ _ => 0 }
    else
      { cols := rd.map (fun c => c.1)
        entry := fun i j =>
          corrFn (col_values ((rd.map (fun c => c.2)).getD i []) common)
                 (col_values ((rd.map (fun c => c.2)).getD j []) common) }

lemma find_high_correlation_pairs_singleton (mc : ℚ) (m : CorrMatrix)
    (h : m.cols.length = 1) : find_high_correlation_pairs mc m = [] := by
  simp [find_high_correlation_pairs, h, List.range_succ]

lemma enforce_diversification_empty (mc : ℚ) (df : List DRow) (m : CorrMatrix)
    (h : m.cols.isEmpty = true) : enforce_diversification mc df m = some df := by
  simp only [enforce_diversification]
  rw [if_pos h]

lemma enforce_diversification_singleton (mc : ℚ) (df : List DRow) (m : CorrMatrix)
    (h : m.cols.length = 1) : enforce_diversification mc df m = some df := by
  simp [enforce_diversification, find_high_correlation_pairs_singleton mc m h]

lemma calculate_correlation_matrix_cols (corrFn : List ℚ → List ℚ → ℚ)
    (hists : List (String × List (Int × ℚ))) :
    (calculate_correlation_matrix corrFn hists).cols = [] ∨
      (calculate_correlation_matrix corrFn hists).cols =
        (fetch_returns hists).map (fun c => c.1) := by
  simp only [calculate_correlation_matrix]
  split_ifs <;> simp

/-- C6 (amended): with zero tickers contributing return data the correlation
matrix is empty; with at most one ticker in the input the matrix has at most
one column (a single usable ticker yields a 1x1 matrix, not an empty one) and
enforce_diversification passes the input through unchanged; and for every
empty or singleton correlation matrix enforce_diversification returns the
input set unchanged. -/
theorem C6_insufficient_data_pass_through :
    (∀ corrFn, (calculate_correlation_matrix corrFn []).cols = [])
    ∧ (∀ corrFn hists, fetch_returns hists = [] →
        (calculate_correlation_matrix corrFn hists).cols = [])
    ∧ (∀ (mc : ℚ) (df : List DRow) (m : CorrMatrix), m.cols.isEmpty = true →
        enforce_diversification mc df m = some df)
    ∧ (∀ (mc : ℚ) (df : List DRow) (m : CorrMatrix), m.cols.length = 1 →
        enforce_diversification mc df m = some df)
    ∧ (∀ (mc : ℚ) (df : List DRow) corrFn hists, hists.length ≤ 1 →
        enforce_diversification mc df (calculate_correlation_matrix corrFn hists) = some df) := by
  have hcols : ∀ corrFn (hists : List (String × List (Int × ℚ))),
      (calculate_correlation_matrix corrFn hists).cols = [] ∨
        (calculate_correlation_matrix corrFn hists).cols =
          (fetch_returns hists).map (fun c => c.1) :=
    calculate_correlation_matrix_cols
  refine ⟨?_, ?_, enforce_diversification_empty, enforce_diversification_singleton, ?_⟩
  · intro corrFn; rfl
  · intro corrFn hists h
    rcases hcols corrFn hists with h1 | h1
    · exact h1
    · rw [h1, h]; rfl
  · intro mc df corrFn hists h
    have hlen : (calculate_correlation_matrix corrFn hists).cols.length ≤ 1 := by
      rcases hcols corrFn hists with h1 | h1
      · simp [h1]
      · have hfr : (fetch_returns hists).length ≤ hists.length := by
          simp only [fetch_returns, List.length_map]
          exact List.length_filter_le _ _
        rw [h1, List.length_map]
        exact le_trans hfr h
    interval_cases hcase : (calculate_correlation_matrix corrFn hists).cols.length
    · exact enforce_diversification_empty mc df _
        (List.isEmpty_iff_length_eq_zero.2 hcase)
    · exact enforce_diversification_singleton mc df _ hcase

/-- History of the single-ticker counterexample: one ticker with three closing
prices, hence two usable daily returns. -/
def exHist : List (String × List (Int × ℚ)) := [("A", [(0, 100), (1, 110), (2, 105)])]

/-- C6 (counterexample to the claim as stated): a single ticker returning
usable data is fewer than 2 tickers, yet calculate_correlation_matrix yields a
1x1 matrix with column A rather than an empty matrix. -/
theorem C6_counterexample_singleton_matrix :
    exHist.length = 1
    ∧ (calculate_correlation_matrix (fun _ _ => 1) exHist).cols = ["A"]
    ∧ (calculate_correlation_matrix (fun _ _ => 1) exHist).cols ≠ [] := by
  refine ⟨rfl, ?_, ?_⟩
  · simp [calculate_correlation_matrix, fetch_returns, exHist, pct_change_dropna,
      common_dates]
  · simp [calculate_correlation_matrix, fetch_returns, exHist, pct_change_dropna,
      common_dates]

/-! ## quant_engine/data_validator.py and schemas/equities.py -/

/-- One row of the DataFrame the validator iterates over.  A none field is a
NaN cell (pd.isna true). -/
structure ERow where
  ticker : Option String
  current_price : Option ℚ
  high_52w : Option ℚ
  low_52w : Option ℚ
  pe_ratio : Option ℚ
  forward_pe : Option ℚ
  peg_ratio : Option ℚ
  market_cap : Option ℤ
  sector : Option String
  ma_50d : Option ℚ
  ma_200d : Option ℚ
  year_return : Option ℚ
deriving Repr, DecidableEq

/-- DataValidator._has_critical_fields: current_price, market_cap and ticker
must be non-null, and the two numeric ones strictly positive. -/
def has_critical_fields (r : ERow) : Bool :=
  if r.current_price.isNone then false
  else if (match r.current_price with | some p => decide (p ≤ 0) | none => false) then false
  else if r.market_cap.isNone then false
  else if (match r.market_cap with | some c => decide (c ≤ 0) | none => false) then false
  else if r.ticker.isNone then false
  else true

/-- DataValidator._has_valid_values.  A comparison against a NaN cell is false
in Python, so each clause only fires when its fields are present. -/
def has_valid_values (r : ERow) : Bool :=
  if (match r.current_price with | some p => decide (p ≤ 0) | none => false) then false
  else if (match r.market_cap with | some c => decide (c ≤ 0) | none => false) then false
  else if (match r.high_52w, r.low_52w with
    | some h, some l => decide (h ≤ l)
    | _, _ => false) then false
  else if (match r.pe_ratio with | some pe => decide (pe < 0) | none => false) then false
  else true

/-- Number of missing entries among the six optional fields. -/
def missing_count (r : ERow) : ℕ :=
  [r.pe_ratio.isNone, r.forward_pe.isNone, r.peg_ratio.isNone,
    r.ma_50d.isNone, r.ma_200d.isNone, r.year_return.isNone].count true

/-- DataValidator._is_complete_enough: the missing fraction of the six
optional fields must not exceed 20 percent. -/
def is_complete_enough (r : ERow) : Bool :=
  decide ((missing_count r : ℚ) / 6 ≤ 0.20)

/-- Drop decision of the validation loop body: the three checks in order,
stopping at the first failure, each with its reason string. -/
def record_drop_reason (r : ERow) : Option String :=
  if !has_critical_fields r then
    some (r.ticker.getD ("nan") ++ ": Missing critical fields")
  else if !has_valid_values r then
    some (r.ticker.getD ("nan") ++ ": Invalid values (negative price or zero market cap)")
  else if !is_complete_enough r then
    some (r.ticker.getD ("nan") ++ ": Too much missing data (>20.0%)")
  else none

/-- Constraints pydantic enforces when an EquityData object is constructed
(schemas/equities.py): required fields present, positive prices and averages,
non-negative pe ratios, ticker of 1 to 10 characters. -/
def equity_data_ok (r : ERow) : Bool :=
  (match r.ticker with | some t => decide (1 ≤ t.length ∧ t.length ≤ 10) | none => false)
  && (match r.current_price with | some p => decide (0 < p) | none => false)
  && (match r.high_52w with | some h => decide (0 < h) | none => false)
  && (match r.low_52w with | some l => decide (0 < l) | none => false)
  && (match r.pe_ratio with | some pe => decide (0 ≤ pe) | none => true)
  && (match r.forward_pe with | some f => decide (0 ≤ f) | none => true)
  && (match r.market_cap with | some c => decide (0 < c) | none => false)
  && r.sector.isSome
  && (match r.ma_50d with | some m => decide (0 < m) | none => true)
  && (match r.ma_200d with | some m => decide (0 < m) | none => true)

/-- DataValidator.validate_equity_data: drop failing rows with a reason each,
rebuild EquityData objects from the surviving rows (an object violating the
schema raises, modelled as an error), then build the resulting EquityDataset,
whose schema demands at least one equity (the raise on an all-dropped input,
modelled as the empty-result error). -/
def validate_equity_data (rows : List ERow) : Except String (List ERow × List String) :=
  let dropped := rows.filterMap record_drop_reason
  let valid := rows.filter (fun r => (record_drop_reason r).isNone)
  if valid.all equity_data_ok then
    if valid.isEmpty then Except.error ("equities: List should have at least 1 item")
    else Except.ok (valid, dropped)
  else Except.error ("EquityData validation error")

/-! Claim-side reading of the three checks. -/

def critical_ok (r : ERow) : Prop :=
  r.ticker.isSome ∧ (∃ p, r.current_price = some p ∧ 0 < p)
    ∧ (∃ c, r.market_cap = some c ∧ 0 < c)

def sanity_ok (r : ERow) : Prop :=
  (∀ p, r.current_price = some p → 0 < p)
  ∧ (∀ c, r.market_cap = some c → 0 < c)
  ∧ (∀ h l, r.high_52w = some h → r.low_52w = some l → l < h)
  ∧ (∀ pe, r.pe_ratio = some pe → 0 ≤ pe)

def complete_ok (r : ERow) : Prop := missing_count r ≤ 1

lemma has_critical_fields_iff (r : ERow) :
    has_critical_fields r = true ↔ critical_ok r := by
  unfold has_critical_fields critical_ok
  cases hp : r.current_price <;> cases hc : r.market_cap <;> cases ht : r.ticker <;>
    simp [not_le]

lemma has_valid_values_iff (r : ERow) :
    has_valid_values r = true ↔ sanity_ok r := by
  unfold has_valid_values sanity_ok
  cases hp : r.current_price <;> cases hc : r.market_cap <;>
    cases hh : r.high_52w <;> cases hl : r.low_52w <;> cases hpe : r.pe_ratio <;>
    simp [not_le, not_lt]

lemma missing_fraction_iff (r : ERow) :
    ((missing_count r : ℚ) / 6 ≤ 0.20) ↔ missing_count r ≤ 1 := by
  rw [div_le_iff (by norm_num : (0:ℚ) < 6)]
  constructor
  · intro h
    by_contra hgt
    push_neg at hgt
    have h2 : (2 : ℚ) ≤ (missing_count r : ℚ) := by exact_mod_cast hgt
    linarith
  · intro h
    have h2 : (missing_count r : ℚ) ≤ 1 := by exact_mod_cast h
    linarith

lemma is_complete_enough_iff (r : ERow) :
    is_complete_enough r = true ↔ complete_ok r := by
  unfold is_complete_enough complete_ok
  rw [decide_eq_true_iff]
  exact missing_fraction_iff r

lemma record_drop_reason_none_iff (r : ERow) :
    record_drop_reason r = none ↔
      (has_critical_fields r = true ∧ has_valid_values r = true
        ∧ is_complete_enough r = true) := by
  unfold record_drop_reason
  split_ifs with h1 h2 h3 <;> simp_all

/-- C7: the validator applies the critical-field check, the value-sanity
check and the completeness check in order, short-circuiting at the first
failure (each failure yields the reason string of the check that failed, and
a record is kept exactly when all three pass), and any record with both
52-week bounds present but high at most low, a non-positive present price, or
a non-positive present market cap is dropped. -/
theorem C7_validator_three_checks :
    ∀ r : ERow,
      (record_drop_reason r = none ↔ critical_ok r ∧ sanity_ok r ∧ complete_ok r)
      ∧ (¬critical_ok r →
          record_drop_reason r =
            some (r.ticker.getD ("nan") ++ ": Missing critical fields"))
      ∧ (critical_ok r → ¬sanity_ok r →
          record_drop_reason r =
            some (r.ticker.getD ("nan") ++ ": Invalid values (negative price or zero market cap)"))
      ∧ (critical_ok r → sanity_ok r → ¬complete_ok r →
          record_drop_reason r =
            some (r.ticker.getD ("nan") ++ ": Too much missing data (>20.0%)"))
      ∧ (∀ h l, r.high_52w = some h → r.low_52w = some l → h ≤ l →
          record_drop_reason r ≠ none)
      ∧ (∀ p, r.current_price = some p → p ≤ 0 → record_drop_reason r ≠ none)
      ∧ (∀ c, r.market_cap = some c → c ≤ 0 → record_drop_reason r ≠ none) := by
  intro r
  have hcf := has_critical_fields_iff r
  have hvv := has_valid_values_iff r
  have hce := is_complete_enough_iff r
  refine ⟨?_, ?_, ?_, ?_, ?_, ?_, ?_⟩
  · rw [record_drop_reason_none_iff, hcf, hvv, hce]
  · intro hnc
    have h1 : has_critical_fields r = false :=
      Bool.eq_false_iff.2 (fun h => hnc (hcf.1 h))
    simp [record_drop_reason, h1]
  · intro hc hns
    have h1 : has_critical_fields r = true := hcf.2 hc
    have h2 : has_valid_values r = false :=
      Bool.eq_false_iff.2 (fun h => hns (hvv.1 h))
    simp [record_drop_reason, h1, h2]
  · intro hc hs hnt
    have h1 : has_critical_fields r = true := hcf.2 hc
    have h2 : has_valid_values r = true := hvv.2 hs
    have h3 : is_complete_enough r = false :=
      Bool.eq_false_iff.2 (fun h => hnt (hce.1 h))
    simp [record_drop_reason, h1, h2, h3]
  · intro h l hh hl hle hnone
    obtain ⟨_, hs, _⟩ := (record_drop_reason_none_iff r).1 hnone
    exact absurd hle (not_le.2 ((hvv.1 hs).2.2.1 h l hh hl))
  · intro p hp hle hnone
    obtain ⟨hc, _, _⟩ := (record_drop_reason_none_iff r).1 hnone
    obtain ⟨_, ⟨q, hq, hq0⟩, _⟩ := hcf.1 hc
    rw [hp] at hq
    cases hq
    exact absurd hle (not_le.2 hq0)
  · intro c hc0 hle hnone
    obtain ⟨hc, _, _⟩ := (record_drop_reason_none_iff r).1 hnone
    obtain ⟨_, _, ⟨q, hq, hq0⟩⟩ := hcf.1 hc
    rw [hc0] at hq
    cases hq
    exact absurd hle (not_le.2 hq0)

/-- C4: as long as at least one record survives the three checks,
validate_equity_data succeeds (failing records are merely dropped); when every
record is dropped the call fails with the empty-result error, so a caller
never receives a cleaned dataset with zero tickers.  The hypothesis states
that the input rows already satisfy the EquityData schema, which pydantic
guarantees for any ingested dataset. -/
theorem C4_validator_empty_result_error :
    ∀ rows : List ERow, (∀ r ∈ rows, equity_data_ok r = true) →
      ((∃ r ∈ rows, record_drop_reason r = none) →
        ∃ res, validate_equity_data rows = Except.ok res)
      ∧ ((∀ r ∈ rows, record_drop_reason r ≠ none) →
        validate_equity_data rows =
          Except.error ("equities: List should have at least 1 item")) := by
  intro rows hok
  have hall : (rows.filter (fun r => (record_drop_reason r).isNone)).all equity_data_ok = true := by
    rw [List.all_eq_true]
    intro r hr
    exact hok r (List.mem_of_mem_filter hr)
  constructor
  · rintro ⟨r, hr, hnone⟩
    have hmem : r ∈ rows.filter (fun r => (record_drop_reason r).isNone) :=
      List.mem_filter.2 ⟨hr, by simp [hnone]⟩
    have hne : rows.filter (fun r => (record_drop_reason r).isNone) ≠ [] :=
      List.ne_nil_of_mem hmem
    refine ⟨(rows.filter (fun r => (record_drop_reason r).isNone),
      rows.filterMap record_drop_reason), ?_⟩
    simp only [validate_equity_data]
    rw [if_pos hall, if_neg (by simpa using hne)]
  · intro hforall
    have hnil : rows.filter (fun r => (record_drop_reason r).isNone) = [] := by
      rw [List.filter_eq_nil]
      intro r hr
      simpa using hforall r hr
    simp [validate_equity_data, hnil]

/-! ## evaluation/groundedness.py -/

/-- Python truthiness of the conviction-correlation test on line 73 of
evaluate_response: conviction_corr and conviction_corr greater than 0.7.  A
missing correlation (None) and a correlation of exactly 0.0 are both falsy. -/
def conviction_truthy (c : Option ℚ) : Bool :=
  match c with
  | none => false
  | some x => if x = 0 then false else decide (x > 0.7)

/-- Overall weighted score of GroundednessEvaluator.evaluate_response. -/
def overall_grounding_score (macro_score ticker_score metric_score : ℚ)
    (conviction_corr : Option ℚ) : ℚ :=
  macro_score * 0.25 + ticker_score * 0.35 + metric_score * 0.30 +
    (if conviction_truthy conviction_corr then 1 else 0.5) * 0.10

/-- GroundednessEvaluator._score_to_grade. -/
def score_to_grade (score : ℚ) : String :=
  if score ≥ 0.95 then "A+"
  else if score ≥ 0.90 then "A"
  else if score ≥ 0.85 then "A-"
  else if score ≥ 0.80 then "B+"
  else if score ≥ 0.75 then "B"
  else if score ≥ 0.70 then "B-"
  else if score ≥ 0.65 then "C+"
  else if score ≥ 0.60 then "C"
  else if score ≥ 0.55 then "C-"
  else if score ≥ 0.50 then "D"
  else "F"

/-- Conviction contribution as the specification words it: 1.0 exactly when
the correlation is defined and above 0.7, otherwise 0.5. -/
def conviction_term_spec (c : Option ℚ) : ℚ :=
  match c with
  | some x => if x > 0.7 then 1 else 0.5
  | none => 0.5

lemma overall_grounding_score_eq (m t k : ℚ) (c : Option ℚ) :
    overall_grounding_score m t k c =
      0.25 * m + 0.35 * t + 0.30 * k + 0.10 * conviction_term_spec c := by
  cases c with
  | none =>
    simp only [overall_grounding_score, conviction_truthy, conviction_term_spec]
    norm_num
    ring
  | some x =>
    simp only [overall_grounding_score, conviction_truthy, conviction_term_spec]
    by_cases hx : x = 0
    · subst hx
      norm_num
      ring
    · simp only [if_neg hx, decide_eq_true_eq]
      by_cases h7 : x > 0.7
      · rw [if_pos h7]; ring
      · rw [if_neg h7]; ring

set_option maxHeartbeats 2000000 in
lemma score_to_grade_iff (s : ℚ) :
    (score_to_grade s = "A+" ↔ 0.95 ≤ s)
    ∧ (score_to_grade s = "A" ↔ 0.90 ≤ s ∧ s < 0.95)
    ∧ (score_to_grade s = "A-" ↔ 0.85 ≤ s ∧ s < 0.90)
    ∧ (score_to_grade s = "B+" ↔ 0.80 ≤ s ∧ s < 0.85)
    ∧ (score_to_grade s = "B" ↔ 0.75 ≤ s ∧ s < 0.80)
    ∧ (score_to_grade s = "B-" ↔ 0.70 ≤ s ∧ s < 0.75)
    ∧ (score_to_grade s = "C+" ↔ 0.65 ≤ s ∧ s < 0.70)
    ∧ (score_to_grade s = "C" ↔ 0.60 ≤ s ∧ s < 0.65)
    ∧ (score_to_grade s = "C-" ↔ 0.55 ≤ s ∧ s < 0.60)
    ∧ (score_to_grade s = "D" ↔ 0.50 ≤ s ∧ s < 0.55)
    ∧ (score_to_grade s = "F" ↔ s < 0.50) := by
  unfold score_to_grade
  split_ifs with h1 h2 h3 h4 h5 h6 h7 h8 h9 h10 <;>
    refine ⟨?_, ?_, ?_, ?_, ?_, ?_, ?_, ?_, ?_, ?_, ?_⟩ <;>
    simp_all <;>
    first
      | linarith
      | (intros; linarith)
      | (constructor <;> intros <;> linarith)

/-- C3: the overall groundedness score is the fixed weighted combination
0.25, 0.35, 0.30 and 0.10, where the last factor contributes 1.0 exactly when
the conviction correlation is defined and above 0.7 and 0.5 otherwise
(including the undefined case); grades are assigned by inclusive lower bounds
0.95, 0.90, ..., 0.50 with F below; and perfect sub-scores with correlation
0.9 give the overall score 1.0 and grade A+. -/
theorem C3_overall_score_and_grade :
    (∀ (m t k : ℚ) (c : Option ℚ),
      overall_grounding_score m t k c =
        0.25 * m + 0.35 * t + 0.30 * k + 0.10 * conviction_term_spec c)
    ∧ (∀ s : ℚ,
        (score_to_grade s = "A+" ↔ 0.95 ≤ s)
        ∧ (score_to_grade s = "A" ↔ 0.90 ≤ s ∧ s < 0.95)
        ∧ (score_to_grade s = "A-" ↔ 0.85 ≤ s ∧ s < 0.90)
        ∧ (score_to_grade s = "B+" ↔ 0.80 ≤ s ∧ s < 0.85)
        ∧ (score_to_grade s = "B" ↔ 0.75 ≤ s ∧ s < 0.80)
        ∧ (score_to_grade s = "B-" ↔ 0.70 ≤ s ∧ s < 0.75)
        ∧ (score_to_grade s = "C+" ↔ 0.65 ≤ s ∧ s < 0.70)
        ∧ (score_to_grade s = "C" ↔ 0.60 ≤ s ∧ s < 0.65)
        ∧ (score_to_grade s = "C-" ↔ 0.55 ≤ s ∧ s < 0.60)
        ∧ (score_to_grade s = "D" ↔ 0.50 ≤ s ∧ s < 0.55)
        ∧ (score_to_grade s = "F" ↔ s < 0.50))
    ∧ overall_grounding_score 1 1 1 (some 0.9) = 1
    ∧ score_to_grade (overall_grounding_score 1 1 1 (some 0.9)) = "A+" := by
  have hex : overall_grounding_score 1 1 1 (some 0.9) = 1 := by
    rw [overall_grounding_score_eq]
    norm_num [conviction_term_spec]
  refine ⟨overall_grounding_score_eq, score_to_grade_iff, hex, ?_⟩
  rw [hex]
  exact (score_to_grade_iff 1).1.2 (by norm_num)

/-- Accumulator step for one numeric claim of _check_macro_grounding: count
it, then either count it as grounded (absolute difference below 0.11) or
append a hallucination message.  The accumulator is (total, grounded,
hallucinations). -/
def macro_step (actual : ℚ) (nm : String) (a : ℕ × ℕ × List String)
    (claimed : ℚ) : ℕ × ℕ × List String :=
  if |claimed - actual| < 0.11 then (a.1 + 1, a.2.1 + 1, a.2.2)
  else (a.1 + 1, a.2.1,
    a.2.2 ++ [nm ++ ": claimed " ++ toString claimed ++ ", actual " ++ toString actual])

/-- GroundednessEvaluator._check_macro_grounding over the numeric claims the
four regular expressions matched: each check is (matched values, payload
value, display name).  Returns (score, grounded, total, hallucinations); a
text with zero matched claims scores 1.0. -/
def check_macro_grounding (checks : List (List ℚ × ℚ × String)) :
    ℚ × ℕ × ℕ × List String :=
  let acc := checks.foldl
    (fun a chk => chk.1.foldl (macro_step chk.2.1 chk.2.2) a)
    ((0, 0, []) : ℕ × ℕ × List String)
  if acc.1 = 0 then (1, 0, 0, [])
  else ((acc.2.1 : ℚ) / (acc.1 : ℚ), acc.2.1, acc.1, acc.2.2)

/-- Total number of matched numeric claims across the four checks. -/
def total_claims (checks : List (List ℚ × ℚ × String)) : ℕ :=
  (checks.map (fun c => c.1.length)).sum

/-- Number of matched claims within 0.11 of the payload value. -/
def grounded_claims (checks : List (List ℚ × ℚ × String)) : ℕ :=
  (checks.map (fun c =>
    (c.1.filter (fun v => decide (|v - c.2.1| < 0.11))).length)).sum

lemma macro_inner_fold (actual : ℚ) (nm : String) (claims : List ℚ) :
    ∀ a : ℕ × ℕ × List String,
      (claims.foldl (macro_step actual nm) a).1 = a.1 + claims.length
      ∧ (claims.foldl (macro_step actual nm) a).2.1 =
          a.2.1 + (claims.filter (fun v => decide (|v - actual| < 0.11))).length
      ∧ (claims.foldl (macro_step actual nm) a).2.2.length =
          a.2.2.length +
            (claims.filter (fun v => !decide (|v - actual| < 0.11))).length := by
  induction claims with
  | nil => intro a; simp
  | cons v vs ih =>
    intro a
    simp only [List.foldl_cons, List.filter_cons]
    by_cases hv : |v - actual| < 0.11
    · have hst : macro_step actual nm a v = (a.1 + 1, a.2.1 + 1, a.2.2) := by
        simp [macro_step, hv]
      rw [hst]
      obtain ⟨i1, i2, i3⟩ := ih (a.1 + 1, a.2.1 + 1, a.2.2)
      refine ⟨?_, ?_, ?_⟩
      · rw [i1]; simp; omega
      · rw [i2]; simp [hv]; omega
      · rw [i3]; simp [hv]
    · have hst : macro_step actual nm a v = (a.1 + 1, a.2.1,
        a.2.2 ++ [nm ++ ": claimed " ++ toString v ++ ", actual " ++ toString actual]) := by
        simp [macro_step, hv]
      rw [hst]
      obtain ⟨i1, i2, i3⟩ := ih (a.1 + 1, a.2.1,
        a.2.2 ++ [nm ++ ": claimed " ++ toString v ++ ", actual " ++ toString actual])
      refine ⟨?_, ?_, ?_⟩
      · rw [i1]; simp; omega
      · rw [i2]; simp [hv]
      · rw [i3]; simp [hv]; omega

lemma grounded_claims_le_total (checks : List (List ℚ × ℚ × String)) :
    grounded_claims checks ≤ total_claims checks := by
  unfold grounded_claims total_claims
  induction checks with
  | nil => simp
  | cons d ds ihd =>
    simp only [List.map_cons, List.sum_cons]
    exact Nat.add_le_add (List.length_filter_le _ _) ihd

lemma macro_outer_fold (checks : List (List ℚ × ℚ × String)) :
    ∀ a : ℕ × ℕ × List String,
      (checks.foldl (fun a chk => chk.1.foldl (macro_step chk.2.1 chk.2.2) a) a).1 =
          a.1 + total_claims checks
      ∧ (checks.foldl (fun a chk => chk.1.foldl (macro_step chk.2.1 chk.2.2) a) a).2.1 =
          a.2.1 + grounded_claims checks
      ∧ (checks.foldl (fun a chk => chk.1.foldl (macro_step chk.2.1 chk.2.2) a) a).2.2.length =
          a.2.2.length + (total_claims checks - grounded_claims checks) := by
  induction checks with
  | nil => intro a; simp [total_claims, grounded_claims]
  | cons c cs ih =>
    intro a
    simp only [List.foldl_cons]
    obtain ⟨o1, o2, o3⟩ := ih (c.1.foldl (macro_step c.2.1 c.2.2) a)
    obtain ⟨i1, i2, i3⟩ := macro_inner_fold c.2.1 c.2.2 c.1 a
    have hfil : c.1.length = (c.1.filter (fun v => decide (|v - c.2.1| < 0.11))).length
        + (c.1.filter (fun v => !decide (|v - c.2.1| < 0.11))).length :=
      c.1.length_eq_length_filter_add (fun v => decide (|v - c.2.1| < 0.11))
    have hfle : (c.1.filter (fun v => decide (|v - c.2.1| < 0.11))).length ≤ c.1.length :=
      List.length_filter_le _ _
    refine ⟨?_, ?_, ?_⟩
    · rw [o1, i1]
      simp [total_claims]
      omega
    · rw [o2, i2]
      simp [grounded_claims]
      omega
    · rw [o3, i3]
      have := grounded_claims_le_total cs
      simp only [total_claims, grounded_claims, List.map_cons, List.sum_cons] at *
      omega

/-- Characterisation of the matching loop of _check_macro_grounding (lines
148 to 170): per matched claim, grounded iff the absolute difference is below
0.11, else one recorded hallucination; zero matches give (1.0, 0, 0, []).
This is the behaviour the claim describes, but the loop is unreachable in the
source: building the checks list already raises (see the run function and the
C5 theorem below). -/
theorem macro_grounding_counts :
    (∀ checks, (check_macro_grounding checks).2.2.1 = total_claims checks
      ∧ (check_macro_grounding checks).2.1 = grounded_claims checks
      ∧ (check_macro_grounding checks).2.2.2.length =
          total_claims checks - grounded_claims checks)
    ∧ (∀ checks, total_claims checks = 0 →
        check_macro_grounding checks = (1, 0, 0, []))
    ∧ (∀ checks, total_claims checks ≠ 0 →
        (check_macro_grounding checks).1 =
          (grounded_claims checks : ℚ) / (total_claims checks : ℚ))
    ∧ check_macro_grounding [([4.33], 4.33, "fed funds rate")] = (1, 1, 1, [])
    ∧ ((check_macro_grounding [([6.0], 4.33, "fed funds rate")]).1 = 0
      ∧ (check_macro_grounding [([6.0], 4.33, "fed funds rate")]).2.1 = 0
      ∧ (check_macro_grounding [([6.0], 4.33, "fed funds rate")]).2.2.1 = 1
      ∧ (check_macro_grounding [([6.0], 4.33, "fed funds rate")]).2.2.2.length = 1) := by
  have hacc : ∀ checks : List (List ℚ × ℚ × String),
      (checks.foldl (fun a chk => chk.1.foldl (macro_step chk.2.1 chk.2.2) a)
        ((0, 0, []) : ℕ × ℕ × List String)).1 = total_claims checks
      ∧ (checks.foldl (fun a chk => chk.1.foldl (macro_step chk.2.1 chk.2.2) a)
        ((0, 0, []) : ℕ × ℕ × List String)).2.1 = grounded_claims checks
      ∧ (checks.foldl (fun a chk => chk.1.foldl (macro_step chk.2.1 chk.2.2) a)
        ((0, 0, []) : ℕ × ℕ × List String)).2.2.length =
          total_claims checks - grounded_claims checks := by
    intro checks
    simpa using macro_outer_fold checks (0, 0, [])
  have hmain : ∀ checks, (check_macro_grounding checks).2.2.1 = total_claims checks
      ∧ (check_macro_grounding checks).2.1 = grounded_claims checks
      ∧ (check_macro_grounding checks).2.2.2.length =
          total_claims checks - grounded_claims checks := by
    intro checks
    obtain ⟨h1, h2, h3⟩ := hacc checks
    have hg0 : total_claims checks = 0 → grounded_claims checks = 0 := by
      intro h0
      have := grounded_claims_le_total checks
      omega
    unfold check_macro_grounding
    by_cases h0 : (checks.foldl (fun a chk => chk.1.foldl (macro_step chk.2.1 chk.2.2) a)
        ((0, 0, []) : ℕ × ℕ × List String)).1 = 0
    · rw [if_pos h0]
      rw [h1] at h0
      have hg := hg0 h0
      simp [h0, hg]
    · rw [if_neg h0]
      exact ⟨h1, h2, by simp [h3]⟩
  refine ⟨hmain, ?_, ?_, ?_, ?_⟩
  · intro checks h0
    obtain ⟨h1, h2, h3⟩ := hacc checks
    unfold check_macro_grounding
    rw [if_pos (by rw [h1]; exact h0)]
  · intro checks h0
    obtain ⟨h1, h2, h3⟩ := hacc checks
    unfold check_macro_grounding
    rw [if_neg (by rw [h1]; exact h0), h1, h2]
  · have : total_claims [([4.33], 4.33, "fed funds rate")] = 1 := by
      simp [total_claims]
    unfold check_macro_grounding
    rw [if_neg ?hne]
    case hne =>
      rw [(hacc _).1, this]
      exact one_ne_zero
    have hst : macro_step 4.33 ("fed funds rate") (0, 0, []) 4.33 =
        (1, 1, []) := by
      norm_num [macro_step, abs]
    simp [hst]
  · have hst : macro_step 4.33 ("fed funds rate") (0, 0, []) 6.0 =
        (1, 0, [("fed funds rate" : String) ++ ": claimed " ++ toString (6.0 : ℚ)
          ++ ", actual " ++ toString (4.33 : ℚ)]) := by
      norm_num [macro_step, abs]
    unfold check_macro_grounding
    simp [hst]

/-- The MacroEnvironment model of schemas/payload.py, the object
evaluate_response hands to _check_macro_grounding.  Its fields are
fed_funds_rate, treasury_10y, cpi_yoy, yield_curve_inverted,
fear_greed_score, fear_greed_label and sentiment_context; there is no
unemployment field (that field belongs to MacroData in schemas/macro.py). -/
structure MacroEnvironment where
  fed_funds_rate : ℚ
  treasury_10y : ℚ
  cpi_yoy : ℚ
  yield_curve_inverted : Bool
  fear_greed_score : ℤ
  fear_greed_label : String
  sentiment_context : String
deriving Repr, DecidableEq

/-- Numeric attribute access on a MacroEnvironment instance: some value for a
float field of the model, none for an attribute that is not a field (pydantic
raises AttributeError there).  The non-numeric fields are never read by the
evaluator, so this numeric view covers every access the checks list makes. -/
def macro_env_attr (env : MacroEnvironment) (a : String) : Option ℚ :=
  if a = "fed_funds_rate" then some env.fed_funds_rate
  else if a = "treasury_10y" then some env.treasury_10y
  else if a = "cpi_yoy" then some env.cpi_yoy
  else none

/-- Attribute name and display name of the four check tuples of
_check_macro_grounding, in source order (lines 141 to 146). -/
def macro_check_attrs : List (String × String) :=
  [("fed_funds_rate", "fed funds rate"), ("treasury_10y", "10Y treasury"),
    ("unemployment", "unemployment"), ("cpi_yoy", "inflation/CPI")]

/-- Construction of the checks list at lines 141 to 146: each tuple eagerly
evaluates one attribute of the macro environment, left to right, and an
access to a missing attribute raises AttributeError (the error case).  The
regex matching against the interpretation text is abstracted as the list of
matched values per attribute name. -/
def build_macro_checks (env : MacroEnvironment) (ms : String → List ℚ) :
    Except String (List (List ℚ × ℚ × String)) :=
  macro_check_attrs.mapM (fun an =>
    match macro_env_attr env an.1 with
    | some v => Except.ok (ms an.1, v, an.2)
    | none => Except.error ("AttributeError: " ++ an.1))

/-- GroundednessEvaluator._check_macro_grounding as a whole: build the checks
list, then run the matching loop over it. -/
def check_macro_grounding_run (env : MacroEnvironment) (ms : String → List ℚ) :
    Except String (ℚ × ℕ × ℕ × List String) :=
  (build_macro_checks env ms).map check_macro_grounding

/-- Macro environment of the specification example (fed funds rate 4.33). -/
def env0 : MacroEnvironment :=
  { fed_funds_rate := 4.33, treasury_10y := 4.49, cpi_yoy := 2.9,
    yield_curve_inverted := false, fear_greed_score := 42,
    fear_greed_label := "Fear", sentiment_context := "" }

/-- Matches of the example text: the fed funds pattern matches 4.33, the
other patterns match nothing. -/
def matches0 : String → List ℚ := fun a =>
  if a = "fed_funds_rate" then [4.33] else []

/-- C5: the macro-grounding sub-check never returns a result: the checks list
construction reads the unemployment attribute, which is not a field of
MacroEnvironment, so every invocation raises AttributeError before any claim
is matched; in particular the run on the example payload with fed funds rate
4.33 and the text claiming 4.33 errors instead of scoring 1.0. -/
theorem C5_macro_grounding_attribute_error :
    (∀ (env : MacroEnvironment) (ms : String → List ℚ),
      check_macro_grounding_run env ms =
        Except.error ("AttributeError: " ++ "unemployment"))
    ∧ check_macro_grounding_run env0 matches0 =
        Except.error ("AttributeError: " ++ "unemployment") := by
  constructor
  · intro env ms
    rfl
  · rfl

/-- Payload opportunity as _check_metric_consistency reads it. -/
structure POpp where
  ticker : String
  pe_ratio : Option ℚ
  peg_ratio : Option ℚ
deriving Repr, DecidableEq

/-- Response opportunity: the numeric P/E and PEG mentions the two regular
expressions extract from the concatenated bull and bear case text. -/
structure ROpp where
  ticker : String
  pe_mentions : List ℚ
  peg_mentions : List ℚ
deriving Repr, DecidableEq

structure Inconsistency where
  ticker : String
  metric : String
  claimed : String
  actual : String
deriving Repr, DecidableEq

/-- Python: actual and abs(claimed - actual) below the tolerance; an absent
(None) or zero actual metric is falsy, so the check fails. -/
def metric_ok (actual : Option ℚ) (tol claimed : ℚ) : Bool :=
  match actual with
  | none => false
  | some a => if a = 0 then false else decide (|claimed - a| < tol)

/-- Python: str(actual) if actual else the N/A marker. -/
def actual_str (actual : Option ℚ) : String :=
  match actual with
  | none => "N/A"
  | some a => if a = 0 then "N/A" else toString a

/-- Accumulator step for one numeric mention: count the check, then count it
passed or record an inconsistency.  The accumulator is (performed, passed,
inconsistencies). -/
def metric_step (tkr metricName : String) (actual : Option ℚ) (tol : ℚ)
    (a : ℕ × ℕ × List Inconsistency) (claimed : ℚ) : ℕ × ℕ × List Inconsistency :=
  if metric_ok actual tol claimed then (a.1 + 1, a.2.1 + 1, a.2.2)
  else (a.1 + 1, a.2.1,
    a.2.2 ++ [⟨tkr, metricName, toString claimed, actual_str actual⟩])

/-- Processing of one response opportunity inside _check_metric_consistency:
skip it when its ticker is not in the payload, otherwise run the P/E mentions
against the payload P/E (tolerance 2.0) and the PEG mentions against the
payload PEG (tolerance 0.5). -/
def opp_metric_checks (payload : List POpp) (r : ROpp)
    (a : ℕ × ℕ × List Inconsistency) : ℕ × ℕ × List Inconsistency :=
  match payload.find? (fun p => p.ticker == r.ticker) with
  | none => a
  | some p =>
    r.peg_mentions.foldl (metric_step r.ticker ("PEG ratio") p.peg_ratio 0.5)
      (r.pe_mentions.foldl (metric_step r.ticker ("PE ratio") p.pe_ratio 2) a)

/-- GroundednessEvaluator._check_metric_consistency: fold the response
opportunities, then score passed over performed, or 1.0 when no numeric
metric mention was found. -/
def check_metric_consistency (payload : List POpp) (resp : List ROpp) :
    ℚ × List Inconsistency :=
  let acc := resp.foldl (fun a r => opp_metric_checks payload r a)
    ((0, 0, []) : ℕ × ℕ × List Inconsistency)
  if acc.1 = 0 then (1, [])
  else ((acc.2.1 : ℚ) / (acc.1 : ℚ), acc.2.2)

lemma metric_fold_all_fail (tkr nm : String) (actual : Option ℚ) (tol : ℚ)
    (h : actual = none ∨ actual = some 0) (claims : List ℚ) :
    ∀ a : ℕ × ℕ × List Inconsistency,
      claims.foldl (metric_step tkr nm actual tol) a =
        (a.1 + claims.length, a.2.1,
          a.2.2 ++ claims.map (fun c => ⟨tkr, nm, toString c, "N/A"⟩)) := by
  have hok : ∀ c, metric_ok actual tol c = false := by
    intro c; rcases h with h | h <;> subst h <;> simp [metric_ok]
  have hstr : actual_str actual = "N/A" := by
    rcases h with h | h <;> subst h <;> simp [actual_str]
  induction claims with
  | nil => intro a; simp
  | cons c cs ih =>
    intro a
    simp only [List.foldl_cons, List.map_cons]
    have hst : metric_step tkr nm actual tol a c =
        (a.1 + 1, a.2.1, a.2.2 ++ [⟨tkr, nm, toString c, "N/A"⟩]) := by
      simp [metric_step, hok c, hstr]
    rw [hst, ih]
    simp [Prod.ext_iff, List.append_assoc]
    omega

lemma metric_ok_falsy (actual : Option ℚ) (tol : ℚ)
    (h : actual = none ∨ actual = some 0) : ∀ c, metric_ok actual tol c = false := by
  intro c; rcases h with h | h <;> subst h <;> simp [metric_ok]

lemma actual_str_falsy (actual : Option ℚ)
    (h : actual = none ∨ actual = some 0) : actual_str actual = "N/A" := by
  rcases h with h | h <;> subst h <;> simp [actual_str]

/-- Full characterisation of one metric fold of _check_metric_consistency,
for an arbitrary payload value: every mention is counted, the passing
mentions are those satisfying the tolerance check, and each failing mention
appends one inconsistency carrying the Python rendering of the actual
value. -/
lemma metric_fold_eq (tkr nm : String) (actual : Option ℚ) (tol : ℚ)
    (claims : List ℚ) :
    ∀ a : ℕ × ℕ × List Inconsistency,
      claims.foldl (metric_step tkr nm actual tol) a =
        (a.1 + claims.length,
          a.2.1 + (claims.filter (fun c => metric_ok actual tol c)).length,
          a.2.2 ++ (claims.filter (fun c => !metric_ok actual tol c)).map
            (fun c => ⟨tkr, nm, toString c, actual_str actual⟩)) := by
  induction claims with
  | nil => intro a; simp
  | cons c cs ih =>
    intro a
    simp only [List.foldl_cons, List.filter_cons]
    by_cases hc : metric_ok actual tol c = true
    · have hst : metric_step tkr nm actual tol a c = (a.1 + 1, a.2.1 + 1, a.2.2) := by
        simp [metric_step, hc]
      rw [hst, ih]
      simp [hc, Prod.ext_iff]
      omega
    · have hcf : metric_ok actual tol c = false := Bool.eq_false_iff.2 hc
      have hst : metric_step tkr nm actual tol a c =
          (a.1 + 1, a.2.1, a.2.2 ++ [⟨tkr, nm, toString c, actual_str actual⟩]) := by
        simp [metric_step, hcf]
      rw [hst, ih]
      simp [hcf, Prod.ext_iff, List.append_assoc]
      omega

/-- C10: for a response opportunity whose ticker is in the payload, whenever
the payload P E ratio is absent or zero every numeric P E mention is counted
as a failed check and recorded as an inconsistency with actual value N/A,
independently of the PEG ratio; symmetrically for an absent-or-zero PEG
ratio, independently of the P E ratio; and when both metrics are absent or
zero, a response with at least one mention scores 0 with every recorded
inconsistency carrying N/A. -/
theorem C10_missing_metric_inconsistent :
    ∀ (payload : List POpp) (r : ROpp) (p : POpp),
      payload.find? (fun q => q.ticker == r.ticker) = some p →
      ((p.pe_ratio = none ∨ p.pe_ratio = some 0) →
        ∀ a : ℕ × ℕ × List Inconsistency,
          opp_metric_checks payload r a =
            (a.1 + r.pe_mentions.length + r.peg_mentions.length,
              a.2.1 + (r.peg_mentions.filter
                (fun c => metric_ok p.peg_ratio 0.5 c)).length,
              a.2.2 ++ r.pe_mentions.map
                  (fun c => ⟨r.ticker, "PE ratio", toString c, "N/A"⟩)
                ++ (r.peg_mentions.filter (fun c => !metric_ok p.peg_ratio 0.5 c)).map
                  (fun c => ⟨r.ticker, "PEG ratio", toString c, actual_str p.peg_ratio⟩)))
      ∧ ((p.peg_ratio = none ∨ p.peg_ratio = some 0) →
        ∀ a : ℕ × ℕ × List Inconsistency,
          opp_metric_checks payload r a =
            (a.1 + r.pe_mentions.length + r.peg_mentions.length,
              a.2.1 + (r.pe_mentions.filter
                (fun c => metric_ok p.pe_ratio 2 c)).length,
              a.2.2 ++ (r.pe_mentions.filter (fun c => !metric_ok p.pe_ratio 2 c)).map
                  (fun c => ⟨r.ticker, "PE ratio", toString c, actual_str p.pe_ratio⟩)
                ++ r.peg_mentions.map
                  (fun c => ⟨r.ticker, "PEG ratio", toString c, "N/A"⟩)))
      ∧ ((p.pe_ratio = none ∨ p.pe_ratio = some 0) →
         (p.peg_ratio = none ∨ p.peg_ratio = some 0) →
         r.pe_mentions.length + r.peg_mentions.length ≠ 0 →
          (check_metric_consistency payload [r]).1 = 0
          ∧ (check_metric_consistency payload [r]).2.length =
              r.pe_mentions.length + r.peg_mentions.length
          ∧ ∀ inc ∈ (check_metric_consistency payload [r]).2, inc.actual = "N/A") := by
  intro payload r p hfind
  refine ⟨?_, ?_, ?_⟩
  · intro hpe a
    have hok := metric_ok_falsy p.pe_ratio 2 hpe
    have hstr := actual_str_falsy p.pe_ratio hpe
    unfold opp_metric_checks
    rw [hfind]
    simp only [metric_fold_eq]
    simp [hok, hstr, List.append_assoc]
  · intro hpeg a
    have hok := metric_ok_falsy p.peg_ratio 0.5 hpeg
    have hstr := actual_str_falsy p.peg_ratio hpeg
    unfold opp_metric_checks
    rw [hfind]
    simp only [metric_fold_eq]
    simp [hok, hstr, List.append_assoc]
  intro hpe hpeg
  have hmain : ∀ a : ℕ × ℕ × List Inconsistency,
      opp_metric_checks payload r a =
        (a.1 + r.pe_mentions.length + r.peg_mentions.length, a.2.1,
          a.2.2 ++ r.pe_mentions.map (fun c => ⟨r.ticker, "PE ratio", toString c, "N/A"⟩)
            ++ r.peg_mentions.map (fun c => ⟨r.ticker, "PEG ratio", toString c, "N/A"⟩)) := by
    intro a
    unfold opp_metric_checks
    rw [hfind]
    simp only [metric_fold_all_fail r.ticker ("PE ratio") p.pe_ratio 2 hpe r.pe_mentions,
      metric_fold_all_fail r.ticker ("PEG ratio") p.peg_ratio 0.5 hpeg r.peg_mentions]
  intro hne
  have hacc : ([r].foldl (fun a r2 => opp_metric_checks payload r2 a)
      ((0, 0, []) : ℕ × ℕ × List Inconsistency)) =
      (r.pe_mentions.length + r.peg_mentions.length, 0,
        r.pe_mentions.map (fun c => ⟨r.ticker, "PE ratio", toString c, "N/A"⟩)
          ++ r.peg_mentions.map (fun c => ⟨r.ticker, "PEG ratio", toString c, "N/A"⟩)) := by
    simp only [List.foldl_cons, List.foldl_nil]
    rw [hmain (0, 0, [])]
    simp
  refine ⟨?_, ?_, ?_⟩
  · unfold check_metric_consistency
    rw [hacc, if_neg (by simpa using hne)]
    simp
  · unfold check_metric_consistency
    rw [hacc, if_neg (by simpa using hne)]
    simp
  · intro inc hinc
    unfold check_metric_consistency at hinc
    rw [hacc, if_neg (by simpa using hne)] at hinc
    simp only [List.mem_append, List.mem_map] at hinc
    rcases hinc with ⟨c, _, rfl⟩ | ⟨c, _, rfl⟩ <;> rfl

/-! ## evaluation/performance_tracker.py -/

/-- Selection step of _get_closest_price: keep the entry whose date is
strictly closer in absolute days to the target (idxmin keeps the first
minimum, hence the strict comparison). -/
def closer_to (target : Int) (best q : Int × ℚ) : Int × ℚ :=
  if |q.1 - target| < |best.1 - target| then q else best

/-- PerformanceTracker._get_closest_price: none on an empty frame, otherwise
the close of the row minimising the absolute day distance to the target. -/
def get_closest_price (prices : List (Int × ℚ)) (target : Int) : Option ℚ :=
  match prices with
  | [] => none
  | p :: ps => some ((ps.foldl (closer_to target) p).2)

/-- Modelled from the spec: the close of the earliest available row dated on
or after the target date, the reading the specification gives of the price
lookup; present only to compare against get_closest_price. -/
def closest_on_after (prices : List (Int × ℚ)) (target : Int) : Option ℚ :=
  match prices.filter (fun p => decide (target ≤ p.1)) with
  | [] => none
  | p :: ps => some ((ps.foldl (fun best q => if q.1 < best.1 then q else best) p).2)

/-- The 1-week, 1-month or 3-month slots of a RecommendationRecord that
backfill_returns fills for one horizon. -/
structure HorizonResult where
  price_later : Option ℚ
  ret : Option ℚ
  benchmark_ret : Option ℚ
  alpha : Option ℚ
deriving Repr, DecidableEq

/-- One horizon block of PerformanceTracker.backfill_returns: when the
horizon date is on or before the evaluation date, look up the closest price,
and if it is truthy (non-zero) compute the percentage return against the
recorded price, attach the benchmark return, and alpha when the benchmark is
present. -/
def backfill_horizon (current_price : ℚ) (prices : List (Int × ℚ))
    (target_date eval_date : Int) (benchmark : Option ℚ) : HorizonResult :=
  if target_date ≤ eval_date then
    match get_closest_price prices target_date with
    | none => ⟨none, none, none, none⟩
    | some p =>
      if p = 0 then ⟨some p, none, none, none⟩
      else
        let ret := (p - current_price) / current_price * 100
        ⟨some p, some ret, benchmark, benchmark.map (fun b => ret - b)⟩
  else ⟨none, none, none, none⟩

lemma closer_to_cases (t : Int) (p w : Int × ℚ) :
    closer_to t p w = p ∨ closer_to t p w = w := by
  unfold closer_to; split_ifs <;> simp

lemma closer_to_le_left (t : Int) (p w : Int × ℚ) :
    |(closer_to t p w).1 - t| ≤ |p.1 - t| := by
  unfold closer_to; split_ifs with h
  · exact le_of_lt h
  · exact le_refl _

lemma closer_to_le_right (t : Int) (p w : Int × ℚ) :
    |(closer_to t p w).1 - t| ≤ |w.1 - t| := by
  unfold closer_to; split_ifs with h
  · exact le_refl _
  · exact not_lt.1 h

lemma closest_fold_mem_min (t : Int) (ps : List (Int × ℚ)) :
    ∀ p : Int × ℚ, (ps.foldl (closer_to t) p) ∈ p :: ps
      ∧ ∀ q ∈ p :: ps, |(ps.foldl (closer_to t) p).1 - t| ≤ |q.1 - t| := by
  induction ps with
  | nil =>
    intro p
    refine ⟨by simp, ?_⟩
    intro q hq
    simp only [List.mem_singleton] at hq
    subst hq
    simp
  | cons w ws ih =>
    intro p
    simp only [List.foldl_cons]
    obtain ⟨im, imin⟩ := ih (closer_to t p w)
    constructor
    · rcases List.mem_cons.1 im with he | hm
      · rcases closer_to_cases t p w with hc | hc <;> rw [he, hc] <;> simp
      · simp [hm]
    · intro q hq
      have hhead : |(ws.foldl (closer_to t) (closer_to t p w)).1 - t| ≤
          |(closer_to t p w).1 - t| := imin _ (List.mem_cons_self _ _)
      rcases List.mem_cons.1 hq with he | hq2
      · rw [he]
        exact le_trans hhead (closer_to_le_left t p w)
      · rcases List.mem_cons.1 hq2 with he | hq3
        · rw [he]
          exact le_trans hhead (closer_to_le_right t p w)
        · exact imin q (List.mem_cons.2 (Or.inr hq3))

/-- C9 (amended): for each horizon whose date is on or before the evaluation
date, backfill looks up the price whose date is closest to the target by
absolute distance (either side of the target, not only on/after), and when
that price is non-zero records the percentage return relative to the recorded
price, the benchmark return for the horizon and alpha as return minus
benchmark; an unreached horizon fills nothing. -/
theorem C9_backfill_returns :
    (∀ (prices : List (Int × ℚ)) (t : Int), prices ≠ [] →
      ∃ e ∈ prices, get_closest_price prices t = some e.2
        ∧ ∀ q ∈ prices, |e.1 - t| ≤ |q.1 - t|)
    ∧ (∀ t : Int, get_closest_price [] t = none)
    ∧ (∀ (cp : ℚ) (prices : List (Int × ℚ)) (td ed : Int) (bench : Option ℚ) (p : ℚ),
        td ≤ ed → get_closest_price prices td = some p → p ≠ 0 →
          (backfill_horizon cp prices td ed bench).price_later = some p
          ∧ (backfill_horizon cp prices td ed bench).ret = some ((p - cp) / cp * 100)
          ∧ (backfill_horizon cp prices td ed bench).benchmark_ret = bench
          ∧ (∀ b, bench = some b →
              (backfill_horizon cp prices td ed bench).alpha =
                some ((p - cp) / cp * 100 - b)))
    ∧ (∀ (cp : ℚ) (prices : List (Int × ℚ)) (td ed : Int) (bench : Option ℚ),
        ¬td ≤ ed → backfill_horizon cp prices td ed bench = ⟨none, none, none, none⟩) := by
  refine ⟨?_, fun t => rfl, ?_, ?_⟩
  · intro prices t hne
    match prices with
    | [] => exact absurd rfl hne
    | p :: ps =>
      obtain ⟨hm, hmin⟩ := closest_fold_mem_min t ps p
      exact ⟨ps.foldl (closer_to t) p, hm, rfl, hmin⟩
  · intro cp prices td ed bench p htd hp hp0
    unfold backfill_horizon
    rw [if_pos htd, hp]
    simp only [if_neg hp0]
    refine ⟨trivial, trivial, trivial, ?_⟩
    intro b hb
    rw [hb]
    rfl
  · intro cp prices td ed bench htd
    unfold backfill_horizon
    rw [if_neg htd]

/-- Price history of the counterexample: closes on day 9 and day 12. -/
def pricesEx : List (Int × ℚ) := [(9, 100), (12, 120)]

/-- C9 (counterexample to the on/after wording): with closes on day 9 and
day 12 and target day 10, the code picks the day-9 close 100 (distance 1,
before the target), while the closest close on/after the target is the day-12
close 120. -/
theorem C9_counterexample_closest_before_target :
    get_closest_price pricesEx 10 = some 100
    ∧ closest_on_after pricesEx 10 = some 120
    ∧ ((100 : ℚ)) ≠ 120 ∧ ((9 : Int)) < 10 := by
  refine ⟨?_, ?_, by norm_num, by norm_num⟩
  · show some ((([((12 : Int), (120 : ℚ))]).foldl (closer_to 10) (9, 100)).2) = some 100
    simp only [List.foldl_cons, List.foldl_nil]
    have : closer_to 10 ((9 : Int), (100 : ℚ)) (12, 120) = (9, 100) := by
      unfold closer_to
      norm_num
    rw [this]
  · have hf : pricesEx.filter (fun p => decide ((10 : Int) ≤ p.1)) = [(12, 120)] := by
      simp [pricesEx]
    unfold closest_on_after
    rw [hf]
    rfl

/-! ## Concrete instantiations of the theorems with hypotheses. -/

theorem C2_enforce_diversification_witness :
    mark_drops df2 [("A", "A", (1 : ℚ))] ["A"] = mark_drops df2 [] ["A"] :=
  C2_enforce_diversification.2.1 df2 "A" "A" 1 [] ["A"] (by decide)

/-- Row satisfying the EquityData schema with every field present. -/
def goodRow : ERow :=
  { ticker := some "A"
    current_price := some 10
    high_52w := some 20
    low_52w := some 5
    pe_ratio := some 10
    forward_pe := some 10
    peg_ratio := some 1
    market_cap := some 100
    sector := some "Tech"
    ma_50d := some 1
    ma_200d := some 1
    year_return := some 5 }

lemma goodRow_ok : equity_data_ok goodRow = true := by decide

lemma goodRow_kept : record_drop_reason goodRow = none := by
  have h3 : is_complete_enough goodRow = true := by
    unfold is_complete_enough missing_count goodRow
    norm_num
  simp [record_drop_reason, h3]
  decide

theorem C4_validator_empty_result_error_witness :
    ∃ res, validate_equity_data [goodRow] = Except.ok res :=
  (C4_validator_empty_result_error [goodRow]
      (by intro r hr; rw [List.mem_singleton] at hr; rw [hr]; exact goodRow_ok)).1
    ⟨goodRow, List.mem_singleton_self goodRow, goodRow_kept⟩

theorem C6_insufficient_data_pass_through_witness :
    enforce_diversification 0.85 df2 { cols := [], entry := fun _ _ => 0 } = some df2 :=
  C6_insufficient_data_pass_through.2.2.1 0.85 df2
    { cols := [], entry := fun _ _ => 0 } rfl

/-- Row with every field missing. -/
def emptyRow : ERow :=
  { ticker := none, current_price := none, high_52w := none, low_52w := none,
    pe_ratio := none, forward_pe := none, peg_ratio := none, market_cap := none,
    sector := none, ma_50d := none, ma_200d := none, year_return := none }

theorem C7_validator_three_checks_witness :
    record_drop_reason emptyRow = some ("nan" ++ ": Missing critical fields") :=
  (C7_validator_three_checks emptyRow).2.1
    (by simp [critical_ok, emptyRow])

theorem C9_backfill_returns_witness :
    backfill_horizon 10 pricesEx 5 4 none = ⟨none, none, none, none⟩ :=
  C9_backfill_returns.2.2.2 10 pricesEx 5 4 none (by norm_num)

def pEx : POpp := { ticker := "A", pe_ratio := none, peg_ratio := none }

def rEx : ROpp := { ticker := "A", pe_mentions := [30], peg_mentions := [] }

theorem C10_missing_metric_inconsistent_witness :
    (check_metric_consistency [pEx] [rEx]).1 = 0
    ∧ (check_metric_consistency [pEx] [rEx]).2.length = 1 := by
  have h := (C10_missing_metric_inconsistent [pEx] rEx pEx (by decide)).2.2
    (Or.inl rfl) (Or.inl rfl) (by decide)
  exact ⟨h.1, by simpa using h.2.1⟩

end TinyVC
